import Mathlib

/-!
Verification of the ISSP firmware-update driver core
(`drivers/misc/issp/issp.c`), shallowly embedded in Lean 4.

The embedding covers:
* the ihex record stream and the firmware validator `issp_check_fw`;
* the image cursor operations `issp_fw_rewind` / `issp_fw_get_byte`;
* the update decision `issp_need_update`;
* the attach sequence `issp_probe`, modelled as a trace of externally
  visible events over an oracle for the fallible external calls;
* the three reset paths (`issp_reset_set`, `issp_usbreset_set`,
  `issp_recovery_work_func`) and an interleaving semantics for their
  mutex-protected critical sections.

Machine integers (u8/u16/u32 fields decoded with `be16_to_cpu` /
`be32_to_cpu`) are modelled as `Nat`; the decoded values are small in all
code paths the driver exercises, so no wrap-around arises.  Error codes
are modelled as `Int` (negative errno, as in the kernel).
-/

/-- One ihex binary record, as produced by `request_ihex_firmware`:
a big-endian 32-bit address and `len` data bytes, where `len` is the
big-endian 16-bit length field.  We carry the data list directly, so
`data.length` plays the role of `be16_to_cpu(rec->len)`. -/
structure IhexBinrec where
  addr : Nat
  data : List Nat
deriving DecidableEq

/-- The platform data consumed by the driver (`struct issp_platform_data`):
the device geometry, the configured absolute version-byte address, the
force-update policy flag and the four expected silicon-id bytes. -/
structure IsspPdata where
  block_size : Nat
  blocks : Nat
  version_addr : Nat
  force_update : Bool
  si_id : List Nat
deriving DecidableEq

/-- Modelled from the spec: `ISSP_FW_SECURITY_ADDR` and
`ISSP_FW_CHECKSUM_ADDR` are compile-time constants of `issp_priv.h`,
which is not part of the given sources; the spec describes them as the
fixed security-record address and the fixed checksum-record address.
They are kept abstract as parameters. -/
structure IsspFwAddrs where
  security_addr : Nat
  checksum_addr : Nat
deriving DecidableEq

def EINVAL : Int := 22
def ENOMEM : Int := 12
def EACCES : Int := 13

/-- The scan state mutated by `issp_check_fw`: the `checks` counter and
the `security_rec` / `checksum_fw` / `version_fw` fields of
`struct issp_host` (zero-initialised by `devm_kzalloc`). -/
structure IsspScan where
  checks : Nat
  security_rec : Option IhexBinrec
  checksum_fw : Nat
  version_fw : Nat
deriving DecidableEq

/-- The condition of the fourth check of `issp_check_fw`
(lines 64-65): `version_addr > addr && version_addr < addr + len`. -/
def issp_version_cond (p : IsspPdata) (r : IhexBinrec) : Prop :=
  p.version_addr > r.addr ∧ p.version_addr < r.addr + r.data.length

instance (p : IsspPdata) (r : IhexBinrec) : Decidable (issp_version_cond p r) :=
  inferInstanceAs (Decidable (_ ∧ _))

/-- The body of the scan loop of `issp_check_fw` (lines 47-69) applied to
one record: each of the four conditions is tested independently and each
hit increments `checks` and records its extracted value. -/
def issp_scan_rec (k : IsspFwAddrs) (p : IsspPdata) (size : Nat)
    (st : IsspScan) (r : IhexBinrec) : IsspScan :=
  let len := r.data.length
  let st := if r.addr + len = size then { st with checks := st.checks + 1 } else st
  let st := if r.addr = k.security_addr then
      { st with security_rec := some r, checks := st.checks + 1 } else st
  let st := if r.addr = k.checksum_addr then
      { st with checksum_fw := (r.data.getD 0 0) <<< 8 ||| r.data.getD 1 0,
                checks := st.checks + 1 } else st
  let st := if issp_version_cond p r then
      { st with version_fw := r.data.getD (p.version_addr - r.addr) 0,
                checks := st.checks + 1 } else st
  st

/-- The `while (rec)` loop of `issp_check_fw` (lines 45-74): records are
processed in stream order and the loop breaks as soon as `checks == 4`
after a record. -/
def issp_check_fw_loop (k : IsspFwAddrs) (p : IsspPdata) (size : Nat) :
    List IhexBinrec → IsspScan → IsspScan
  | [], st => st
  | r :: rs, st =>
    let st' := issp_scan_rec k p size st r
    if st'.checks = 4 then st' else issp_check_fw_loop k p size rs st'

/-- `issp_check_fw` (lines 37-80): scan the record stream with
`size = block_size * blocks`; return `-EINVAL` if fewer than four checks
accumulated, else `0`, together with the final host scan state. -/
def issp_check_fw (k : IsspFwAddrs) (p : IsspPdata) (recs : List IhexBinrec) :
    Int × IsspScan :=
  let size := p.block_size * p.blocks
  let st := issp_check_fw_loop k p size recs ⟨0, none, 0, 0⟩
  (if st.checks < 4 then -EINVAL else 0, st)

/-- `issp_need_update` (lines 107-135).  `readRet` is the return value of
the external `issp_read_block` call and `ver_uc` the byte it stored.
The function returns the C return value together with the value written
through `*update` (`none` when the branch did not write it).
Modelled from the spec: `issp_read_block` is the programmer capability
`read_block(index, offset, length) -> bytes|error`, so for a one-byte
read its outcomes are `1` (the byte count) or a negative errno such as
`-EACCES`. -/
def issp_need_update (p : IsspPdata) (version_fw : Nat) (readRet : Int)
    (ver_uc : Nat) : Int × Option Bool :=
  if readRet = -EACCES then
    (0, some true)
  else if readRet = 1 then
    (0, some (decide (ver_uc < version_fw) ||
              (decide (ver_uc ≠ version_fw) && p.force_update)))
  else
    (readRet, none)

/-- The image-cursor state of `struct issp_host`: the full record stream
(`fw->data`), the current record pointer `cur_rec` (modelled as the
suffix of the stream starting at the current record, `[]` standing for
the terminating NULL of `ihex_next_binrec`) and the intra-record offset
`cur_idx`. -/
structure IsspFwHost where
  fw : List IhexBinrec
  cur_rec : List IhexBinrec
  cur_idx : Nat
deriving DecidableEq

/-- `issp_fw_rewind` (lines 82-86): point the cursor at the first record
of the stream, offset 0. -/
def issp_fw_rewind (h : IsspFwHost) : IsspFwHost :=
  { h with cur_rec := h.fw, cur_idx := 0 }

/-- `issp_fw_seek_security` is not needed by the claims, but
`issp_fw_get_byte` (lines 94-105) is: return the byte at the cursor,
advance the offset, and when the offset reaches the current record's
length move to the next record (NULL, i.e. `[]`, after the last one)
with offset 0.  Calling with a NULL current record is undefined in C
(null dereference); the model returns `none` there. -/
def issp_fw_get_byte (h : IsspFwHost) : Option (Nat × IsspFwHost) :=
  match h.cur_rec with
  | [] => none
  | r :: rs =>
    let byte := r.data.getD h.cur_idx 0
    if h.cur_idx + 1 ≥ r.data.length then
      some (byte, { h with cur_rec := rs, cur_idx := 0 })
    else
      some (byte, { h with cur_idx := h.cur_idx + 1 })

/-- `n` successive `issp_fw_get_byte` calls, collecting the returned
bytes; `none` if any call hits the end of the stream. -/
def issp_fw_extract : IsspFwHost → Nat → Option (List Nat × IsspFwHost)
  | h, 0 => some ([], h)
  | h, n + 1 =>
    match issp_fw_get_byte h with
    | none => none
    | some (b, h') =>
      match issp_fw_extract h' n with
      | none => none
      | some (bs, h'') => some (b :: bs, h'')

/-- Total number of data bytes of a record stream. -/
def isspTotalLen (recs : List IhexBinrec) : Nat :=
  (recs.map (fun r => r.data.length)).sum

/-- All data bytes of a record stream, in stream order. -/
def isspJoinData (recs : List IhexBinrec) : List Nat :=
  (recs.map (fun r => r.data)).flatten

/-- Externally visible events of the attach sequence `issp_probe`
(lines 271-389) that the claims talk about. -/
inductive Ev where
  | ucProgram     -- issp_uc_program(host): enter programming mode
  | ucRun         -- issp_uc_run(host): leave programming mode, controller running
  | gpioInData    -- gpio_direction_input(pdata->data_gpio)
  | gpioInClk     -- gpio_direction_input(pdata->clk_gpio)
  | releaseFw     -- release_firmware(host->fw)
  | progFw        -- issp_program(host): program the image
  | kfreeHost     -- devm_kfree(dev, host)
  | kfreeWakeLock -- devm_kfree(dev, g_issp_wake_lock)
deriving DecidableEq

/-- Oracle for the external calls `issp_probe` makes after the firmware
image has been loaded: the four silicon-id bytes `issp_uc_program` reads
into `host->si_id`, the outcome of the `issp_read_block` call inside
`issp_need_update`, the junk value an uninitialised `update` variable
would read as, the return value of `issp_program`, and whether the
wake-lock allocation and the workqueue creation succeed. -/
structure ProbeEnv where
  dev_si : List Nat
  readRet : Int
  readByte : Nat
  junkUpdate : Bool
  programRet : Int
  wakeLockAllocOk : Bool
  workqueueOk : Bool
deriving DecidableEq

/-- The silicon-identity comparison of `issp_probe` (lines 320-323):
true iff any of the four bytes read back differs from the expected
platform-data byte. -/
def issp_si_mismatch (p : IsspPdata) (env : ProbeEnv) : Bool :=
  (env.dev_si.getD 0 0 != p.si_id.getD 0 0) ||
  (env.dev_si.getD 1 0 != p.si_id.getD 1 0) ||
  (env.dev_si.getD 2 0 != p.si_id.getD 2 0) ||
  (env.dev_si.getD 3 0 != p.si_id.getD 3 0)

/-- Tail of the `err` label (lines 383-388): both lines to input,
release the image, free the host, return `-ENOMEM`. -/
def isspErrTail : List Ev := [.gpioInData, .gpioInClk, .releaseFw, .kfreeHost]

/-- Tail of the `err_id` label (lines 374-379): run the controller, both
lines to input, release the image, return `0`.  The success path falls
through into this label. -/
def isspErrIdTail : List Ev := [.ucRun, .gpioInData, .gpioInClk, .releaseFw]

/-- `issp_probe` from the point where the firmware image has been loaded
(lines 312-389; the earlier paths return before the image or the
programming hardware is touched).  Returns the probe return value and
the trace of visible events.  Control flow mirrors the source:
invalid image -> `goto err`; silicon-id mismatch or `issp_need_update`
error -> `goto err_id`; `issp_program` only when the update flag is set
(its return value only selects a log message); wake-lock allocation
failure -> `goto err`; workqueue creation failure -> `goto err_work`;
otherwise fall through into `err_id` and return 0. -/
def issp_probe (k : IsspFwAddrs) (p : IsspPdata) (recs : List IhexBinrec)
    (env : ProbeEnv) : Int × List Ev :=
  if (issp_check_fw k p recs).1 ≠ 0 then
    (-ENOMEM, isspErrTail)
  else if issp_si_mismatch p env then
    (0, .ucProgram :: isspErrIdTail)
  else
    let nu := issp_need_update p (issp_check_fw k p recs).2.version_fw
                env.readRet env.readByte
    if nu.1 ≠ 0 then
      (0, .ucProgram :: isspErrIdTail)
    else
      let progEvs : List Ev := if nu.2.getD env.junkUpdate then [.progFw] else []
      if env.wakeLockAllocOk = false then
        (-ENOMEM, .ucProgram :: (progEvs ++ isspErrTail))
      else if env.workqueueOk = false then
        (-ENOMEM, .ucProgram :: (progEvs ++ .kfreeWakeLock :: isspErrTail))
      else
        (0, .ucProgram :: (progEvs ++ isspErrIdTail))

/-- The atomic actions of the three reset-affecting paths. -/
inductive Act where
  | wakeLockAcq   -- wake_lock(g_issp_wake_lock)
  | mutexLock     -- mutex_lock(&g_issp_host->issp_lock)
  | mutexUnlock   -- mutex_unlock(&g_issp_host->issp_lock)
  | ucReset       -- issp_uc_reset()
  | usbUnload     -- roth_usb_unload()
  | usbReload     -- roth_usb_reload()
  | sleepMs       -- msleep(500)
  | wakeUnlock    -- wake_unlock(g_issp_wake_lock)
deriving DecidableEq

/-- `issp_reset_set` (lines 190-200), as its straight-line action
sequence: wake_lock, mutex_lock, issp_uc_reset, mutex_unlock,
wake_unlock. -/
def issp_reset_set : List Act :=
  [.wakeLockAcq, .mutexLock, .ucReset, .mutexUnlock, .wakeUnlock]

/-- `issp_usbreset_set` (lines 202-215): wake_lock, mutex_lock,
roth_usb_unload, issp_uc_reset, roth_usb_reload, mutex_unlock,
wake_unlock. -/
def issp_usbreset_set : List Act :=
  [.wakeLockAcq, .mutexLock, .usbUnload, .ucReset, .usbReload,
   .mutexUnlock, .wakeUnlock]

/-- One recovery attempt: the body of the `for (i = 0; i < 1; i++)` loop
of `issp_recovery_work_func` (lines 159-168). -/
def issp_recovery_attempt : List Act :=
  [.mutexLock, .usbUnload, .ucReset, .usbReload, .mutexUnlock, .sleepMs]

/-- `issp_recovery_work_func` (lines 146-172).  The argument models the
`g_issp_wake_lock` pointer: `none` is a NULL pointer (the function logs
an error and returns before doing anything), `some held` is an allocated
wake lock whose held-state is `held`.  The function only ever tests the
pointer for NULL — the held-state is not consulted.  The loop body runs
for `i = 0..0`, then the wake lock is released. -/
def issp_recovery_work_func (wl : Option Bool) : List Act :=
  match wl with
  | none => []
  | some _ =>
    ((List.range 1).flatMap (fun _ => issp_recovery_attempt)) ++ [.wakeUnlock]

/-- The three reset-affecting paths, as the programs they execute:
task 0 is `issp_reset_set`, task 1 is `issp_usbreset_set`, task 2 is the
autonomous recovery `issp_recovery_work_func` with an allocated wake
lock. -/
def isspPaths : Fin 3 → List Act :=
  fun t =>
    if t = 0 then issp_reset_set
    else if t = 1 then issp_usbreset_set
    else issp_recovery_work_func (some true)

/-- State of the interleaving semantics: one program counter per task
and the owner of `g_issp_host->issp_lock` (`none` when free). -/
structure SysState where
  pc0 : Nat
  pc1 : Nat
  pc2 : Nat
  holder : Option (Fin 3)
deriving DecidableEq

def pcOf (s : SysState) (t : Fin 3) : Nat :=
  if t = 0 then s.pc0 else if t = 1 then s.pc1 else s.pc2

def bumpPc (s : SysState) (t : Fin 3) : SysState :=
  if t = 0 then { s with pc0 := s.pc0 + 1 }
  else if t = 1 then { s with pc1 := s.pc1 + 1 }
  else { s with pc2 := s.pc2 + 1 }

/-- One interleaving step: some task executes its next action.
`mutex_lock` blocks while the mutex is held and acquires it;
`mutex_unlock` is only executed by the task that did the matching lock
(each path unlocks the mutex it locked); every other action leaves the
mutex untouched. -/
inductive SysStep : SysState → SysState → Prop where
  | exec (s : SysState) (t : Fin 3) (a : Act)
      (hf : (isspPaths t).get? (pcOf s t) = some a)
      (hl : a = .mutexLock → s.holder = none)
      (hu : a = .mutexUnlock → s.holder = some t) :
      SysStep s { bumpPc s t with
                  holder := if a = .mutexLock then some t
                            else if a = .mutexUnlock then none
                            else s.holder }

/-- States reachable from the initial state (all tasks at their entry,
mutex free). -/
inductive SysReach : SysState → Prop where
  | init : SysReach ⟨0, 0, 0, none⟩
  | step {s s' : SysState} : SysReach s → SysStep s s' → SysReach s'

/-- Index of the `mutexLock` action in each path. -/
def lockIdx : Fin 3 → Nat := fun t => if t = 0 then 1 else if t = 1 then 1 else 0

/-- Index of the `mutexUnlock` action in each path. -/
def unlockIdx : Fin 3 → Nat := fun t => if t = 0 then 3 else if t = 1 then 5 else 4

/-- Task `t` is inside its mutex-protected critical section when its
program counter is strictly past its `mutexLock` and not yet past its
`mutexUnlock`. -/
def inCS (t : Fin 3) (n : Nat) : Prop := lockIdx t < n ∧ n ≤ unlockIdx t

instance (t : Fin 3) (n : Nat) : Decidable (inCS t n) :=
  inferInstanceAs (Decidable (_ ∧ _))

/-- An action that touches the shared reset/subsystem resources. -/
def isCritical (a : Act) : Prop :=
  a = .ucReset ∨ a = .usbUnload ∨ a = .usbReload

instance (a : Act) : Decidable (isCritical a) :=
  inferInstanceAs (Decidable (_ ∨ _ ∨ _))

/-- The lock-ownership invariant: any task inside its critical section
is the mutex holder. -/
def LockInv (s : SysState) : Prop := ∀ t : Fin 3, inCS t (pcOf s t) → s.holder = some t

/-- How many of the four scan conditions of `issp_check_fw` a single
record satisfies (0 to 4): the amount the `checks` counter grows by when
the loop body processes that record. -/
def issp_rec_hits (k : IsspFwAddrs) (p : IsspPdata) (size : Nat)
    (r : IhexBinrec) : Nat :=
  (if r.addr + r.data.length = size then 1 else 0) +
  (if r.addr = k.security_addr then 1 else 0) +
  (if r.addr = k.checksum_addr then 1 else 0) +
  (if issp_version_cond p r then 1 else 0)

/-- Specification predicate: the trace releases the firmware image, and
both GPIO lines have been returned to input state before that. -/
def linesInputBeforeRelease (t : List Ev) : Prop :=
  Ev.releaseFw ∈ t ∧
  t.indexOf Ev.gpioInData < t.indexOf Ev.releaseFw ∧
  t.indexOf Ev.gpioInClk < t.indexOf Ev.releaseFw

instance (t : List Ev) : Decidable (linesInputBeforeRelease t) :=
  inferInstanceAs (Decidable (_ ∧ _ ∧ _))

/-- Example fixed addresses: security record at 8, checksum record
at 12. -/
def okK : IsspFwAddrs := ⟨8, 12⟩

/-- Example platform data: 4 blocks of 4 bytes (total size 16), version
byte at absolute address 3, force-update off, expected silicon id
1,2,3,4. -/
def okP : IsspPdata := ⟨4, 4, 3, false, [1, 2, 3, 4]⟩

/-- Example image that satisfies all four markers of `issp_check_fw`
under `okK`/`okP`: a record covering the version byte (value 7), the
security record whose end reaches the total size, and the checksum
record with checksum 0xABCD. -/
def okRecs : List IhexBinrec :=
  [⟨0, [0, 0, 0, 7]⟩, ⟨8, [0, 0, 0, 0, 0, 0, 0, 0]⟩, ⟨12, [171, 205]⟩]

/-- Fixed addresses for the double-counting image: security record at 0,
checksum record at 16. -/
def badK : IsspFwAddrs := ⟨0, 16⟩

/-- Platform data for the double-counting image: 8 blocks of 8 bytes
(total size 64), version byte at absolute address 100. -/
def badP : IsspPdata := ⟨8, 8, 100, false, [1, 2, 3, 4]⟩

/-- A record at the security address whose end reaches the total size:
it satisfies two of the four scan conditions at once. -/
def badRec : IhexBinrec := ⟨0, List.replicate 64 0⟩

/-- An image with two copies of `badRec`: the `checks` counter of
`issp_check_fw` reaches 4 although no checksum record and no
version-covering record exists. -/
def badRecs : List IhexBinrec := [badRec, badRec]

/-- Probe oracle: matching silicon id, successful one-byte version read
returning 0, all allocations succeed. -/
def envOk : ProbeEnv := ⟨[1, 2, 3, 4], 1, 0, false, 0, true, true⟩

/-- Probe oracle: device reports silicon id 9,9,9,9 (mismatch). -/
def envMismatch : ProbeEnv := ⟨[9, 9, 9, 9], 1, 0, false, 0, true, true⟩

/-- Probe oracle: the version-byte read fails with `-EIO`-style code
`-5` (neither success nor `-EACCES`). -/
def envReadFail : ProbeEnv := ⟨[1, 2, 3, 4], -5, 0, false, 0, true, true⟩

lemma isspPaths_fetch_bound {t : Fin 3} {n : Nat} {a : Act}
    (h : (isspPaths t).get? n = some a) : n < 7 := by
  have hn : n < (isspPaths t).length := by
    by_contra hn
    push_neg at hn
    rw [List.get?_eq_none.mpr hn] at h
    cases h
  have hlen : (isspPaths t).length ≤ 7 := by fin_cases t <;> decide
  omega

lemma isspPaths_lock_at {t : Fin 3} {n : Nat}
    (h : (isspPaths t).get? n = some .mutexLock) : n = lockIdx t := by
  have hn := isspPaths_fetch_bound h
  fin_cases t <;> interval_cases n <;> revert h <;> decide

lemma isspPaths_unlock_at {t : Fin 3} {n : Nat}
    (h : (isspPaths t).get? n = some .mutexUnlock) : n = unlockIdx t := by
  have hn := isspPaths_fetch_bound h
  fin_cases t <;> interval_cases n <;> revert h <;> decide

lemma isspPaths_fetch_lockIdx (t : Fin 3) :
    (isspPaths t).get? (lockIdx t) = some .mutexLock := by
  fin_cases t <;> decide

lemma isspPaths_crit_inCS {t : Fin 3} {n : Nat} {a : Act}
    (h : (isspPaths t).get? n = some a) (hc : isCritical a) : inCS t n := by
  have hn := isspPaths_fetch_bound h
  rcases hc with h1 | h1 | h1 <;> subst h1 <;>
    fin_cases t <;> interval_cases n <;> revert h <;> decide

lemma pcOf_set_holder (s : SysState) (X : Option (Fin 3)) (v : Fin 3) :
    pcOf { s with holder := X } v = pcOf s v := rfl

lemma pcOf_bump (s : SysState) (t u : Fin 3) :
    pcOf (bumpPc s t) u = if u = t then pcOf s u + 1 else pcOf s u := by
  fin_cases t <;> fin_cases u <;> simp [pcOf, bumpPc]

lemma lockInv_step {s s' : SysState} (hs : LockInv s) (hst : SysStep s s') :
    LockInv s' := by
  cases hst with
  | exec t a hf hl hu =>
    intro u hcs
    rw [pcOf_set_holder, pcOf_bump] at hcs
    show (if a = Act.mutexLock then some t
          else if a = Act.mutexUnlock then none else s.holder) = some u
    by_cases hal : a = Act.mutexLock
    · subst hal
      rw [if_pos rfl]
      by_cases hut : u = t
      · rw [hut]
      · rw [if_neg hut] at hcs
        have := hs u hcs
        rw [hl rfl] at this
        cases this
    · by_cases hau : a = Act.mutexUnlock
      · subst hau
        rw [if_neg hal, if_pos rfl]
        by_cases hut : u = t
        · subst hut
          rw [if_pos rfl] at hcs
          have hidx : pcOf s u = unlockIdx u := isspPaths_unlock_at hf
          have h2 := hcs.2
          omega
        · rw [if_neg hut] at hcs
          have h1 := hs u hcs
          have h2 := hu rfl
          rw [h1] at h2
          cases h2
          exact absurd rfl hut
      · rw [if_neg hal, if_neg hau]
        by_cases hut : u = t
        · subst hut
          rw [if_pos rfl] at hcs
          obtain ⟨hc1, hc2⟩ := hcs
          have hlt : lockIdx u < pcOf s u := by
            rcases Nat.lt_or_ge (lockIdx u) (pcOf s u) with hgt | hge
            · exact hgt
            · have heq : lockIdx u = pcOf s u := by omega
              have := isspPaths_fetch_lockIdx u
              rw [heq, hf] at this
              cases this
              exact absurd rfl hal
          exact hs u ⟨hlt, by omega⟩
        · rw [if_neg hut] at hcs
          exact hs u hcs

lemma lockInv_reach {s : SysState} (h : SysReach s) : LockInv s := by
  induction h with
  | init =>
    intro t hcs
    have h0 : pcOf ⟨0, 0, 0, none⟩ t = 0 := by fin_cases t <;> rfl
    rw [h0] at hcs
    exact absurd hcs.1 (Nat.not_lt_zero _)
  | step _ hst ih => exact lockInv_step ih hst

lemma issp_fw_get_byte_fw {h h' : IsspFwHost} {b : Nat}
    (hg : issp_fw_get_byte h = some (b, h')) : h'.fw = h.fw := by
  unfold issp_fw_get_byte at hg
  rcases hcur : h.cur_rec with _ | ⟨r, rs⟩ <;> rw [hcur] at hg
  · cases hg
  · dsimp only at hg
    split at hg <;> (cases hg; rfl)

lemma issp_fw_extract_fw :
    ∀ (n : Nat) {h h' : IsspFwHost} {bs : List Nat},
      issp_fw_extract h n = some (bs, h') → h'.fw = h.fw := by
  intro n
  induction n with
  | zero =>
    intro h h' bs hg
    unfold issp_fw_extract at hg
    cases hg
    rfl
  | succ n ih =>
    intro h h' bs hg
    unfold issp_fw_extract at hg
    rcases hgb : issp_fw_get_byte h with _ | ⟨b, h₁⟩ <;> rw [hgb] at hg
    · cases hg
    · dsimp only at hg
      rcases hx : issp_fw_extract h₁ n with _ | ⟨bs₁, h₂⟩ <;> rw [hx] at hg
      · cases hg
      · cases hg
        rw [ih hx, issp_fw_get_byte_fw hgb]

lemma issp_fw_extract_succ_some {h h' : IsspFwHost} {b : Nat} (n : Nat)
    (hg : issp_fw_get_byte h = some (b, h')) :
    issp_fw_extract h (n + 1) =
      (issp_fw_extract h' n).map (fun q => (b :: q.1, q.2)) := by
  simp only [issp_fw_extract]
  rw [hg]
  dsimp only
  cases hx : issp_fw_extract h' n with
  | none => rfl
  | some q => cases q; rfl

lemma issp_fw_extract_rec (fwAll rs : List IhexBinrec) (r : IhexBinrec) :
    ∀ (k i n : Nat), i + k = r.data.length → 0 < k →
    issp_fw_extract ⟨fwAll, r :: rs, i⟩ (k + n) =
      (issp_fw_extract ⟨fwAll, rs, 0⟩ n).map
        (fun p => (r.data.drop i ++ p.1, p.2)) := by
  intro k
  induction k with
  | zero => intro i n h1 h2; omega
  | succ k ih =>
    intro i n h1 _
    have hi : i < r.data.length := by omega
    have hdrop : r.data.drop i = r.data.getD i 0 :: r.data.drop (i + 1) := by
      rw [List.getD_eq_getElem r.data 0 hi]
      exact List.drop_eq_getElem_cons hi
    rw [show k + 1 + n = (k + n) + 1 by omega]
    rcases Nat.eq_or_lt_of_le (Nat.succ_le_of_lt hi) with hend | hmid
    · -- last byte of the record: advance to the next record
      have hstep : issp_fw_get_byte ⟨fwAll, r :: rs, i⟩ =
          some (r.data.getD i 0, ⟨fwAll, rs, 0⟩) := by
        unfold issp_fw_get_byte
        dsimp only
        rw [if_pos (by omega : i + 1 ≥ r.data.length)]
      rw [issp_fw_extract_succ_some (k + n) hstep]
      have hk0 : k = 0 := by omega
      subst hk0
      have hdrop2 : r.data.drop (i + 1) = [] := List.drop_eq_nil_of_le (by omega)
      rw [Nat.zero_add]
      cases hx : issp_fw_extract ⟨fwAll, rs, 0⟩ n with
      | none => rfl
      | some p => cases p; simp [hdrop, hdrop2]
    · -- stay inside the record
      have hstep : issp_fw_get_byte ⟨fwAll, r :: rs, i⟩ =
          some (r.data.getD i 0, ⟨fwAll, r :: rs, i + 1⟩) := by
        unfold issp_fw_get_byte
        dsimp only
        rw [if_neg (by omega : ¬ i + 1 ≥ r.data.length)]
      rw [issp_fw_extract_succ_some (k + n) hstep]
      rw [ih (i + 1) n (by omega) (by omega)]
      cases hx : issp_fw_extract ⟨fwAll, rs, 0⟩ n with
      | none => rfl
      | some p => cases p; simp [hdrop]

lemma issp_fw_extract_all (fwAll : List IhexBinrec) :
    ∀ cur : List IhexBinrec, (∀ r ∈ cur, r.data ≠ []) →
    issp_fw_extract ⟨fwAll, cur, 0⟩ (isspTotalLen cur) =
      some (isspJoinData cur, ⟨fwAll, [], 0⟩) := by
  intro cur
  induction cur with
  | nil => intro _; rfl
  | cons r rs ih =>
    intro hne
    have hr : r.data ≠ [] := hne r (by simp)
    have hlen : 0 < r.data.length := List.length_pos.mpr hr
    rw [show isspTotalLen (r :: rs) = r.data.length + isspTotalLen rs from by
      simp [isspTotalLen]]
    rw [issp_fw_extract_rec fwAll rs r r.data.length 0 (isspTotalLen rs)
          (by omega) hlen]
    rw [ih (fun x hx => hne x (by simp [hx]))]
    simp [isspJoinData]

lemma issp_scan_rec_checks (k : IsspFwAddrs) (p : IsspPdata) (size : Nat)
    (st : IsspScan) (r : IhexBinrec) :
    (issp_scan_rec k p size st r).checks = st.checks + issp_rec_hits k p size r := by
  simp only [issp_scan_rec, issp_rec_hits]
  split_ifs <;> simp_arith

lemma issp_scan_rec_version (k : IsspFwAddrs) (p : IsspPdata) (size : Nat)
    (st : IsspScan) (r : IhexBinrec) :
    (issp_scan_rec k p size st r).version_fw =
      if issp_version_cond p r then r.data.getD (p.version_addr - r.addr) 0
      else st.version_fw := by
  simp only [issp_scan_rec]
  split_ifs <;> rfl

lemma issp_check_fw_loop_checks (k : IsspFwAddrs) (p : IsspPdata) (size : Nat) :
    ∀ (recs : List IhexBinrec) (st : IsspScan),
      (4 ≤ (issp_check_fw_loop k p size recs st).checks ↔
       4 ≤ st.checks + (recs.map (issp_rec_hits k p size)).sum) := by
  intro recs
  induction recs with
  | nil => intro st; simp [issp_check_fw_loop]
  | cons r rs ih =>
    intro st
    have hrec := issp_scan_rec_checks k p size st r
    simp only [issp_check_fw_loop, List.map_cons, List.sum_cons]
    by_cases h4 : (issp_scan_rec k p size st r).checks = 4
    · rw [if_pos h4]
      omega
    · rw [if_neg h4, ih (issp_scan_rec k p size st r)]
      omega

lemma issp_hits_sum (k : IsspFwAddrs) (p : IsspPdata) (size : Nat)
    (recs : List IhexBinrec) :
    (recs.map (issp_rec_hits k p size)).sum =
      recs.countP (fun r => decide (r.addr + r.data.length = size)) +
      recs.countP (fun r => decide (r.addr = k.security_addr)) +
      recs.countP (fun r => decide (r.addr = k.checksum_addr)) +
      recs.countP (fun r => decide (issp_version_cond p r)) := by
  induction recs with
  | nil => rfl
  | cons r rs ih =>
    simp only [List.map_cons, List.sum_cons, List.countP_cons, issp_rec_hits, ih,
      decide_eq_true_eq]
    split_ifs <;> omega

/-- C1 (amended): validation succeeds iff the per-record condition hits,
summed over all records, reach 4 — a record may satisfy several of the
four conditions at once and the same condition may be counted for
several records, so success does not require four distinct facts.  In
particular (second conjunct) an image in which each of the four
conditions — a record with `address + length` equal to
`block_size * blocks`, a record at the security address, a record at the
checksum address, and a record whose span strictly contains the version
address (`addr < version_addr < addr + len`) — holds of some record
always validates successfully. -/
theorem issp_check_fw_pass_iff (k : IsspFwAddrs) (p : IsspPdata)
    (recs : List IhexBinrec) :
    ((issp_check_fw k p recs).1 = 0 ↔
      4 ≤ (recs.map (issp_rec_hits k p (p.block_size * p.blocks))).sum) ∧
    (((∃ r ∈ recs, r.addr + r.data.length = p.block_size * p.blocks) ∧
      (∃ r ∈ recs, r.addr = k.security_addr) ∧
      (∃ r ∈ recs, r.addr = k.checksum_addr) ∧
      (∃ r ∈ recs, issp_version_cond p r)) →
      (issp_check_fw k p recs).1 = 0) := by
  have hloop := issp_check_fw_loop_checks k p (p.block_size * p.blocks) recs
    ⟨0, none, 0, 0⟩
  have hzero : ((⟨0, none, 0, 0⟩ : IsspScan)).checks = 0 := rfl
  rw [hzero] at hloop
  have hmain : (issp_check_fw k p recs).1 = 0 ↔
      4 ≤ (recs.map (issp_rec_hits k p (p.block_size * p.blocks))).sum := by
    simp only [issp_check_fw]
    split_ifs with hlt
    · have h1 : (-EINVAL : Int) ≠ 0 := by decide
      simp only [h1, false_iff]
      omega
    · simp only [eq_self_iff_true, true_iff]
      omega
  refine ⟨hmain, fun hall => hmain.mpr ?_⟩
  obtain ⟨h1, h2, h3, h4⟩ := hall
  rw [issp_hits_sum]
  have c1 : 0 < recs.countP
      (fun r => decide (r.addr + r.data.length = p.block_size * p.blocks)) := by
    rw [List.countP_pos_iff]
    simpa using h1
  have c2 : 0 < recs.countP (fun r => decide (r.addr = k.security_addr)) := by
    rw [List.countP_pos_iff]
    simpa using h2
  have c3 : 0 < recs.countP (fun r => decide (r.addr = k.checksum_addr)) := by
    rw [List.countP_pos_iff]
    simpa using h3
  have c4 : 0 < recs.countP (fun r => decide (issp_version_cond p r)) := by
    rw [List.countP_pos_iff]
    simpa using h4
  omega

/-- C1 counterexample: the image `badRecs` (two records, each satisfying
the size condition and the security condition at once) passes
`issp_check_fw` although it has no record at the checksum address and no
record whose span covers the version address — refuting "validation
succeeds only if all four distinct facts are established". -/
theorem issp_check_fw_double_count :
    (issp_check_fw badK badP badRecs).1 = 0 ∧
    (∀ r ∈ badRecs, r.addr ≠ badK.checksum_addr) ∧
    (∀ r ∈ badRecs, ¬ issp_version_cond badP r) := by
  decide

/-- C2: on a successful one-byte read (`issp_read_block` returned 1) the
decision is `true` exactly when `device_version < embedded_version` or
when the versions differ and the force-update flag is set, and `false`
otherwise, with the function returning 0; on an access-protected read
(`-EACCES`) the decision is forced `true` and the function returns 0. -/
theorem issp_need_update_decision (p : IsspPdata) (vfw b : Nat) :
    ((issp_need_update p vfw 1 b).1 = 0 ∧
     ((issp_need_update p vfw 1 b).2 = some true ↔
       b < vfw ∨ (b ≠ vfw ∧ p.force_update = true)) ∧
     ((issp_need_update p vfw 1 b).2 = some false ↔
       ¬ (b < vfw ∨ (b ≠ vfw ∧ p.force_update = true)))) ∧
    issp_need_update p vfw (-EACCES) b = (0, some true) := by
  constructor
  · have h1 : (1 : Int) ≠ -EACCES := by decide
    simp only [issp_need_update, if_neg h1, if_pos rfl]
    refine ⟨rfl, ?_, ?_⟩
    · simp [Bool.or_eq_true, Bool.and_eq_true, decide_eq_true_eq]
    · simp [Bool.or_eq_false_iff, Bool.and_eq_false_iff, decide_eq_true_eq,
        decide_eq_false_iff_not]
  · simp [issp_need_update]

/-- C4 (amended): the version-byte condition of the scan holds exactly
when the version address lies strictly between the record's address and
`address + length` — the case `version_addr = addr` is excluded — and
when it holds the scan stores the record's data byte at offset
`version_addr - addr` as the embedded version. -/
theorem issp_version_cond_spec (k : IsspFwAddrs) (p : IsspPdata) (size : Nat)
    (st : IsspScan) (r : IhexBinrec) :
    (issp_version_cond p r ↔
      r.addr < p.version_addr ∧ p.version_addr < r.addr + r.data.length) ∧
    ((issp_scan_rec k p size st r).version_fw =
      if issp_version_cond p r then r.data.getD (p.version_addr - r.addr) 0
      else st.version_fw) ∧
    (p.version_addr = r.addr → ¬ issp_version_cond p r) := by
  refine ⟨Iff.rfl, issp_scan_rec_version k p size st r, ?_⟩
  intro heq hc
  exact absurd hc.1 (by omega)

/-- C4 counterexample: a record starting exactly at the version address
(address 5, three data bytes, version address 5): the version address
lies in the half-open span `[5, 8)` but the scan condition does not hold
and scanning the record establishes no check — refuting "including the
case where the version address equals the record's start address". -/
theorem issp_version_cond_at_start :
    (⟨1, 1, 5, false, []⟩ : IsspPdata).version_addr =
      (⟨5, [9, 9, 9]⟩ : IhexBinrec).addr ∧
    (⟨1, 1, 5, false, []⟩ : IsspPdata).version_addr <
      (⟨5, [9, 9, 9]⟩ : IhexBinrec).addr +
        (⟨5, [9, 9, 9]⟩ : IhexBinrec).data.length ∧
    ¬ issp_version_cond ⟨1, 1, 5, false, []⟩ ⟨5, [9, 9, 9]⟩ ∧
    (issp_scan_rec ⟨99, 98⟩ ⟨1, 1, 5, false, []⟩ 97 ⟨0, none, 0, 0⟩
        ⟨5, [9, 9, 9]⟩).checks = 0 := by
  decide

/-- C5: a version-byte read outcome that is neither a successful
one-byte read (`1`) nor `-EACCES` — i.e. any other (negative) error —
is returned unchanged by `issp_need_update` with the update flag left
unwritten, and the attach flow never calls `issp_program`. -/
theorem issp_need_update_error_propagates (p : IsspPdata) (env : ProbeEnv)
    (h1 : env.readRet < 0) (h2 : env.readRet ≠ -EACCES) :
    (∀ vfw b, issp_need_update p vfw env.readRet b = (env.readRet, none)) ∧
    ∀ (k : IsspFwAddrs) (recs : List IhexBinrec),
      Ev.progFw ∉ (issp_probe k p recs env).2 := by
  have hnu : ∀ vfw b,
      issp_need_update p vfw env.readRet b = (env.readRet, none) := by
    intro vfw b
    have hne1 : env.readRet ≠ 1 := by omega
    simp only [issp_need_update, if_neg h2, if_neg hne1]
  refine ⟨hnu, ?_⟩
  intro k recs
  by_cases hc : (issp_check_fw k p recs).1 ≠ 0
  · simp only [issp_probe, if_pos hc]
    decide
  · simp only [issp_probe, if_neg hc]
    by_cases hm : issp_si_mismatch p env = true
    · simp only [if_pos hm]
      decide
    · simp only [if_neg hm]
      have hkey := hnu (issp_check_fw k p recs).2.version_fw env.readByte
      have hne0 : env.readRet ≠ 0 := by omega
      simp only [hkey]
      rw [if_pos (show ((env.readRet, (none : Option Bool))).1 ≠ 0 from hne0)]
      decide

/-- With both setup allocations succeeding, the attach trace is one of
exactly three shapes: the invalid-image shape (no controller contact at
all, `err` tail), or — for a valid image — the `err_id` tail after
`issp_uc_program`, with or without an `issp_program` call in between. -/
lemma issp_probe_trace_cases (k : IsspFwAddrs) (p : IsspPdata)
    (recs : List IhexBinrec) (env : ProbeEnv)
    (hw : env.wakeLockAllocOk = true) (hq : env.workqueueOk = true) :
    ((issp_check_fw k p recs).1 ≠ 0 ∧
      issp_probe k p recs env = (-ENOMEM, isspErrTail)) ∨
    ((issp_check_fw k p recs).1 = 0 ∧
      (issp_probe k p recs env = (0, Ev.ucProgram :: isspErrIdTail) ∨
       issp_probe k p recs env =
         (0, Ev.ucProgram :: Ev.progFw :: isspErrIdTail))) := by
  by_cases hc : (issp_check_fw k p recs).1 ≠ 0
  · exact Or.inl ⟨hc, by simp only [issp_probe, if_pos hc]⟩
  · right
    push_neg at hc
    refine ⟨hc, ?_⟩
    have hc' : ¬ (issp_check_fw k p recs).1 ≠ 0 := by simp [hc]
    simp only [issp_probe, if_neg hc']
    by_cases hm : issp_si_mismatch p env = true
    · left
      simp only [if_pos hm]
    · simp only [if_neg hm]
      by_cases hn : (issp_need_update p (issp_check_fw k p recs).2.version_fw
          env.readRet env.readByte).1 ≠ 0
      · left
        simp only [if_pos hn]
      · simp only [if_neg hn, hw, hq]
        by_cases hu : (issp_need_update p (issp_check_fw k p recs).2.version_fw
            env.readRet env.readByte).2.getD env.junkUpdate = true
        · right
          simp [hu]
        · left
          simp [hu]

/-- C3 (amended): with the setup allocations succeeding, on every attach
path the data and clock lines are returned to input state before the
firmware image is released; on every valid-image path (identity
mismatch, update-decision error, programming success, programming
failure, no-update) `issp_uc_run` is performed before the image is
released; on the invalid-image path `issp_uc_run` is NOT performed (the
controller was never put into programming mode there) though the lines
are still released and the image freed. -/
theorem issp_probe_cleanup (k : IsspFwAddrs) (p : IsspPdata)
    (recs : List IhexBinrec) (env : ProbeEnv)
    (hw : env.wakeLockAllocOk = true) (hq : env.workqueueOk = true) :
    linesInputBeforeRelease (issp_probe k p recs env).2 ∧
    ((issp_check_fw k p recs).1 = 0 →
      Ev.ucRun ∈ (issp_probe k p recs env).2 ∧
      (issp_probe k p recs env).2.indexOf Ev.ucRun <
        (issp_probe k p recs env).2.indexOf Ev.releaseFw) ∧
    ((issp_check_fw k p recs).1 ≠ 0 →
      Ev.ucRun ∉ (issp_probe k p recs env).2 ∧
      (issp_probe k p recs env).2 = isspErrTail) := by
  rcases issp_probe_trace_cases k p recs env hw hq with ⟨hc, hp⟩ | ⟨hc, hp | hp⟩ <;>
    rw [hp]
  · exact ⟨by decide, fun h0 => absurd h0 hc, fun _ => ⟨by decide, rfl⟩⟩
  · exact ⟨by decide, fun _ => by decide, fun hne => absurd hc hne⟩
  · exact ⟨by decide, fun _ => by decide, fun hne => absurd hc hne⟩

/-- C3 witness: concrete valid image, matching id, successful read, all
allocations succeed — the cleanup contract holds and the run step is in
the trace. -/
theorem issp_probe_cleanup_witness :
    linesInputBeforeRelease (issp_probe okK okP okRecs envOk).2 ∧
    Ev.ucRun ∈ (issp_probe okK okP okRecs envOk).2 :=
  ⟨(issp_probe_cleanup okK okP okRecs envOk rfl rfl).1,
   ((issp_probe_cleanup okK okP okRecs envOk rfl rfl).2.1 (by decide)).1⟩

/-- C3 counterexample: for an invalid image (here: an empty record
stream) the attach path runs the `err` tail, which contains no
`issp_uc_run` event — refuting "the controller run step is performed on
every path" for the invalid-image path. -/
theorem issp_probe_invalid_image_no_run :
    (issp_check_fw okK okP []).1 ≠ 0 ∧
    Ev.ucRun ∉ (issp_probe okK okP [] envOk).2 ∧
    Ev.releaseFw ∈ (issp_probe okK okP [] envOk).2 := by
  decide

/-- C6 (amended): a silicon-identity mismatch on a valid image aborts
the rest of the attach sequence — no update decision is consumed and
`issp_program` is never called — after performing `issp_uc_run` and
returning both lines to input before the image is released; but the
probe routine returns 0 (reported success), not an error. -/
theorem issp_probe_si_mismatch_aborts (k : IsspFwAddrs) (p : IsspPdata)
    (recs : List IhexBinrec) (env : ProbeEnv)
    (hc : (issp_check_fw k p recs).1 = 0)
    (hm : issp_si_mismatch p env = true) :
    issp_probe k p recs env =
      (0, [Ev.ucProgram, Ev.ucRun, Ev.gpioInData, Ev.gpioInClk, Ev.releaseFw]) ∧
    Ev.progFw ∉ (issp_probe k p recs env).2 := by
  have hc' : ¬ (issp_check_fw k p recs).1 ≠ 0 := by simp [hc]
  have hp : issp_probe k p recs env = (0, Ev.ucProgram :: isspErrIdTail) := by
    simp only [issp_probe, if_neg hc', if_pos hm]
  rw [hp]
  exact ⟨rfl, by decide⟩

/-- C6 witness: the concrete valid image with a device replying with
silicon id 9,9,9,9 against expected 1,2,3,4. -/
theorem issp_probe_si_mismatch_aborts_witness :
    issp_probe okK okP okRecs envMismatch =
      (0, [Ev.ucProgram, Ev.ucRun, Ev.gpioInData, Ev.gpioInClk, Ev.releaseFw]) :=
  (issp_probe_si_mismatch_aborts okK okP okRecs envMismatch (by decide)
    (by decide)).1

/-- C6 counterexample: on the same mismatching-identity attach, the
probe returns 0, i.e. it reports success — refuting "attach aborts
reporting failure". -/
theorem issp_probe_si_mismatch_returns_zero :
    issp_si_mismatch okP envMismatch = true ∧
    (issp_check_fw okK okP okRecs).1 = 0 ∧
    (issp_probe okK okP okRecs envMismatch).1 = 0 := by
  decide

/-- C7: in every reachable interleaving of the three reset-affecting
paths, at most one task is inside its mutex-protected critical section,
and any task whose next action is a controller reset or a dependent
subsystem unload/reload holds the mutex — so no two paths ever
interleave those steps. -/
theorem issp_reset_mutual_exclusion :
    ∀ s : SysState, SysReach s →
      (∀ t u : Fin 3, inCS t (pcOf s t) → inCS u (pcOf s u) → t = u) ∧
      (∀ (t : Fin 3) (a : Act), (isspPaths t).get? (pcOf s t) = some a →
        isCritical a → s.holder = some t) := by
  intro s hs
  have hinv := lockInv_reach hs
  constructor
  · intro t u ht hu
    have h1 := hinv t ht
    have h2 := hinv u hu
    rw [h1] at h2
    exact Option.some.inj h2
  · intro t a hf hc
    exact hinv t (isspPaths_crit_inCS hf hc)

/-- A concrete reachable state: the recovery task has acquired the
mutex (its pc is 1) and holds the lock. -/
lemma sysReach_recovery_locked : SysReach ⟨0, 0, 1, some 2⟩ := by
  have h := SysStep.exec ⟨0, 0, 0, none⟩ 2 .mutexLock rfl (fun _ => rfl)
    (fun hx => by cases hx)
  exact SysReach.step SysReach.init h

/-- C7 witness: in the concrete reachable state where the recovery task
has just taken the mutex and its next action is the critical
`roth_usb_unload`, the mutex holder is the recovery task. -/
theorem issp_reset_mutual_exclusion_witness :
    (⟨0, 0, 1, some 2⟩ : SysState).holder = some 2 :=
  (issp_reset_mutual_exclusion ⟨0, 0, 1, some 2⟩ sysReach_recovery_locked).2
    2 .usbUnload (by decide) (by decide)

/-- C8 (amended): when the delayed recovery task fires with a NULL
wake-lock handle it performs nothing at all — no subsystem unload or
reload, no controller reset, no wake-lock release; the check is on the
handle being NULL, not on the guard being held: with an allocated
handle the full sequence runs whatever the held-state. -/
theorem issp_recovery_work_nullcheck :
    issp_recovery_work_func none = [] ∧
    (∀ a : Act, a ∉ issp_recovery_work_func none) ∧
    (∀ held : Bool, issp_recovery_work_func (some held) =
      [.mutexLock, .usbUnload, .ucReset, .usbReload, .mutexUnlock, .sleepMs,
       .wakeUnlock]) := by
  refine ⟨rfl, ?_, fun _ => rfl⟩
  intro a hm
  cases hm

/-- C8 counterexample: with an allocated but not-held wake lock
(`some false`) the recovery sequence runs in full — it unloads the
subsystem, toggles the reset and issues a wake-lock release — refuting
"when the guard is not held the sequence is skipped entirely". -/
theorem issp_recovery_runs_when_unheld :
    Act.usbUnload ∈ issp_recovery_work_func (some false) ∧
    Act.ucReset ∈ issp_recovery_work_func (some false) ∧
    Act.wakeUnlock ∈ issp_recovery_work_func (some false) := by
  decide

/-- C9 (amended): the manual pin-reset handler performs exactly
wake-lock acquire, mutex lock, controller reset, mutex unlock, wake-lock
release — it does acquire and release the suspend-inhibiting guard
(once each), and touches no subsystem unload/reload. -/
theorem issp_reset_set_sequence :
    issp_reset_set =
      [.wakeLockAcq, .mutexLock, .ucReset, .mutexUnlock, .wakeUnlock] ∧
    issp_reset_set.count Act.wakeLockAcq = 1 ∧
    issp_reset_set.count Act.wakeUnlock = 1 ∧
    issp_reset_set.count Act.usbUnload = 0 ∧
    issp_reset_set.count Act.usbReload = 0 := by
  decide

/-- C9 counterexample: the pin-reset handler acquires and releases the
wake lock, so its sequence is not the claimed bare
lock-reset-unlock. -/
theorem issp_reset_set_takes_wake_lock :
    Act.wakeLockAcq ∈ issp_reset_set ∧ Act.wakeUnlock ∈ issp_reset_set ∧
    issp_reset_set ≠ [Act.mutexLock, Act.ucReset, Act.mutexUnlock] := by
  decide

/-- C10: for an image whose records are all non-empty (as the ihex
format guarantees for records in the chain — a zero-length record is
the end marker), rewinding and calling `issp_fw_get_byte` once per data
byte yields exactly all record data bytes in stream order, crossing
record boundaries, and ends with the cursor on the terminating NULL;
and after any successful extraction, rewinding and re-extracting the
same number of bytes reproduces the identical byte sequence. -/
theorem issp_fw_stream_bytes (h : IsspFwHost)
    (hne : ∀ r ∈ h.fw, r.data ≠ []) :
    issp_fw_extract (issp_fw_rewind h) (isspTotalLen h.fw) =
      some (isspJoinData h.fw, ⟨h.fw, [], 0⟩) ∧
    ∀ (n : Nat) (bs : List Nat) (h₂ : IsspFwHost),
      issp_fw_extract (issp_fw_rewind h) n = some (bs, h₂) →
      issp_fw_extract (issp_fw_rewind h₂) n = some (bs, h₂) := by
  constructor
  · exact issp_fw_extract_all h.fw h.fw hne
  · intro n bs h₂ hx
    have hfw : h₂.fw = h.fw := by
      have hh := issp_fw_extract_fw n hx
      exact hh
    have hrw : issp_fw_rewind h₂ = issp_fw_rewind h := by
      show (⟨h₂.fw, h₂.fw, 0⟩ : IsspFwHost) = ⟨h.fw, h.fw, 0⟩
      rw [hfw]
    rw [hrw, hx]

/-- C10 witness: a two-record image (sizes 2 and 1) yields exactly the
three bytes 1,2,3 in order after a rewind. -/
theorem issp_fw_stream_bytes_witness :
    (∀ r ∈ (⟨[⟨0, [1, 2]⟩, ⟨2, [3]⟩], [], 5⟩ : IsspFwHost).fw, r.data ≠ []) ∧
    issp_fw_extract (issp_fw_rewind ⟨[⟨0, [1, 2]⟩, ⟨2, [3]⟩], [], 5⟩)
        (isspTotalLen (⟨[⟨0, [1, 2]⟩, ⟨2, [3]⟩], [], 5⟩ : IsspFwHost).fw) =
      some ([1, 2, 3], ⟨[⟨0, [1, 2]⟩, ⟨2, [3]⟩], [], 0⟩) :=
  ⟨by decide,
   (issp_fw_stream_bytes ⟨[⟨0, [1, 2]⟩, ⟨2, [3]⟩], [], 5⟩ (by decide)).1⟩

/-- C5 witness: a concrete read failure `-5` on the valid example image:
the error is returned with no decision written, and the attach trace
contains no programming call. -/
theorem issp_need_update_error_propagates_witness :
    issp_need_update okP 7 (-5) 0 = (-5, none) ∧
    Ev.progFw ∉ (issp_probe okK okP okRecs envReadFail).2 :=
  ⟨(issp_need_update_error_propagates okP envReadFail (by decide)
      (by decide)).1 7 0,
   (issp_need_update_error_propagates okP envReadFail (by decide)
      (by decide)).2 okK okRecs⟩
